import Mathlib

/-!
Verification development for the Moquegua alert-extraction pipeline
(`src/get_alerts.py`, `src/geoidep_python.py`, `src/database.py`).

The definitions below are a shallow embedding of the pipeline:
pandas DataFrames become lists of records, boolean-mask filtering becomes
`List.filter`, `pd.to_datetime` on the `fin` column becomes an
`Except`-valued column parse (pandas raises on an unparsable string),
`drop_duplicates` becomes an order-preserving first-occurrence dedup, and
the GeoPandas spatial join with `predicate='intersects'` is modelled over
axis-aligned closed rectangles with integer corners (the DE-9IM
`intersects` predicate: the two point sets share at least one point,
boundaries included).
-/

namespace Moquegua

/-- A row of the scraped SENAMHI alert table
(`senamhi_get_meteorological_table`, `geoidep_python.py` lines 57-69):
columns `aviso`, `nro`, `emision`, `inicio`, `fin`, `duracion`, `nivel`,
all strings. -/
structure RawAlert where
  aviso : String
  nro : String
  emision : String
  inicio : String
  fin : String
  duracion : String
  nivel : String
deriving DecidableEq, Repr

/-- Numeric value of a decimal digit character. -/
def digitVal (c : Char) : Nat := c.toNat - 48

/-- Date parsing as `pd.to_datetime` performs it on an ISO `YYYY-MM-DD`
string: the ten characters must be four digits, a dash, two digits, a dash
and two digits, with the month in 1..12 and the day in 1..31; the result is
the date encoded as `y * 10000 + m * 100 + d`, an encoding whose natural
order agrees with chronological order.  Any other string fails to parse
(`pd.to_datetime` raises by default, `errors='raise'`). -/
def parseDate (s : String) : Option Nat :=
  match s.toList with
  | [y1, y2, y3, y4, h1, m1, m2, h2, d1, d2] =>
    if y1.isDigit && y2.isDigit && y3.isDigit && y4.isDigit &&
       h1 = '-' && h2 = '-' &&
       m1.isDigit && m2.isDigit && d1.isDigit && d2.isDigit then
      let y := ((digitVal y1 * 10 + digitVal y2) * 10 + digitVal y3) * 10 + digitVal y4
      let m := digitVal m1 * 10 + digitVal m2
      let d := digitVal d1 * 10 + digitVal d2
      if 1 ≤ m && m ≤ 12 && 1 ≤ d && d ≤ 31 then some (y * 10000 + m * 100 + d)
      else none
    else none
  | _ => none

/-- Line 43 of `get_alerts.py`:
`alerts_table['fin_date'] = pd.to_datetime(alerts_table['fin'])`.
Every row gains a parsed end date; if any `fin` string is unparsable the
whole statement raises (pandas default `errors='raise'`), which the
embedding renders as `Except.error` carrying the offending string. -/
def toDatetimeFin (alerts : List RawAlert) : Except String (List (RawAlert × Nat)) :=
  alerts.mapM (fun a =>
    match parseDate a.fin with
    | some d => Except.ok (a, d)
    | none => Except.error a.fin)

/-- Line 45 of `get_alerts.py`:
`active_alerts = alerts_table[alerts_table['fin_date'] >= today].copy()`.
Boolean-mask row selection keeps exactly the rows whose parsed end date is
`≥ today`, in source order. -/
def filterActive (rows : List (RawAlert × Nat)) (today : Nat) : List (RawAlert × Nat) :=
  rows.filter (fun r => today ≤ r.2)

/-- Closed axis-aligned rectangle with integer corners: the geometry model
used for district polygons and alert-geometry features.  The GeoPandas
spatial join of `get_alerts.py` lines 102-107 runs shapely's DE-9IM
predicates on arbitrary polygons; rectangles are enough to state and settle
every geometric claim, and the predicates below follow the DE-9IM
definitions exactly on this class. -/
structure Rect where
  x1 : Int
  y1 : Int
  x2 : Int
  y2 : Int
deriving DecidableEq, Repr

/-- Point membership in a closed rectangle (boundary included, as for a
shapely polygon, which is a closed point set). -/
def Rect.containsPt (r : Rect) (p : Int × Int) : Bool :=
  decide (r.x1 ≤ p.1) && decide (p.1 ≤ r.x2) && decide (r.y1 ≤ p.2) && decide (p.2 ≤ r.y2)

/-- Shapely `intersects` (the predicate named on line 106 of
`get_alerts.py`): the two closed point sets share at least one point —
interior-interior, boundary-interior or boundary-boundary contact all
count.  For closed integer rectangles this is the closed-interval overlap
test on both axes. -/
def intersectsRect (a b : Rect) : Bool :=
  decide (max a.x1 b.x1 ≤ min a.x2 b.x2) && decide (max a.y1 b.y1 ≤ min a.y2 b.y2)

/-- Shapely `overlaps`-style strict semantics (the alternative the spec
contrasts with): the interiors share a point, so mere boundary contact does
not count.  For rectangles this is strict interval overlap on both axes. -/
def overlapsRect (a b : Rect) : Bool :=
  decide (max a.x1 b.x1 < min a.x2 b.x2) && decide (max a.y1 b.y1 < min a.y2 b.y2)

/-- A row of the nationwide district table returned by `get_districts`
(`geoidep_python.py`): administrative code `ubigeo`, display name
`nombdist`, polygon `geometry`. -/
structure District where
  ubigeo : String
  nombdist : String
  geometry : Rect
deriving DecidableEq, Repr

/-- A row of the province table returned by `get_provinces`
(`geoidep_python.py`): department code `ccdd`, province code `ccpp`,
name `nombprov`. -/
structure Province where
  ccdd : String
  ccpp : String
  nombprov : String
deriving DecidableEq, Repr

/-- A Moquegua district row after the province merge of `get_alerts.py`
line 67: a left merge leaves `nombprov` as NaN (here `none`) when no
province row matches the district's `prov_code`. -/
structure DistrictRow where
  ubigeo : String
  nombdist : String
  geometry : Rect
  nombprov : Option String
deriving DecidableEq, Repr

/-- First-occurrence deduplication, the semantics of pandas
`drop_duplicates()` with its default `keep='first'` (`get_alerts.py`
line 139, and the `prov_map` on line 63): a row is kept exactly when it has
not been seen earlier, so the first occurrence survives in insertion
order. -/
def dropDupAux {α : Type} [DecidableEq α] (seen : List α) : List α → List α
  | [] => []
  | x :: xs => if x ∈ seen then dropDupAux seen xs else x :: dropDupAux (x :: seen) xs

/-- Pandas `DataFrame.drop_duplicates()` over a list of rows. -/
def dropDuplicates {α : Type} [DecidableEq α] (xs : List α) : List α :=
  dropDupAux [] xs

/-- Rendering of the spec's words for §4.4: keep the first occurrence of
each row in insertion order and drop every later exact duplicate.  Stated
independently of `dropDuplicates` so the code's deduplication can be proved
to refine it. -/
def keepFirsts {α : Type} [DecidableEq α] : List α → List α
  | [] => []
  | x :: xs => x :: keepFirsts (xs.filter (fun y => y ≠ x))
termination_by l => l.length
decreasing_by
  simp only [List.length_cons]
  exact Nat.lt_succ_of_le (List.length_filter_le _ _)

/-- The deduplicated `(prov_code, nombprov)` table of `get_alerts.py`
lines 61-63: `prov_code` is the concatenation `ccdd ++ ccpp`. -/
def provMap (provs : List Province) : List (String × String) :=
  dropDuplicates (provs.map (fun p => (p.ccdd ++ p.ccpp, p.nombprov)))

/-- Pandas left merge on `prov_code` (`get_alerts.py` line 67): each
district row joins every matching province row; a district with no match
survives with a null province name. -/
def mergeProvLeft (dists : List (District × String)) (pm : List (String × String)) :
    List DistrictRow :=
  dists.flatMap (fun dp =>
    let ms := pm.filter (fun q => q.1 == dp.2)
    if ms.isEmpty then [⟨dp.1.ubigeo, dp.1.nombdist, dp.1.geometry, none⟩]
    else ms.map (fun q => ⟨dp.1.ubigeo, dp.1.nombdist, dp.1.geometry, some q.2⟩))

/-- Python string slicing `s[:n]` on a text value: the first `n`
characters.  (Defined over the character list rather than through
`String.take`'s byte positions, which symbolic reasoning cannot reduce.) -/
def strTake (s : String) (n : Nat) : String := String.mk (s.data.take n)

/-- The District Registry Loader, `get_alerts.py` lines 53-67: keep the
districts whose `ubigeo` starts with the regional prefix `"18"`
(`str.startswith` rendered as comparing the two-character slice), derive
`prov_code` as the four-character slice of `ubigeo`, and left-merge the
province names. -/
def loadMoqueguaDistricts (all_districts : List District) (all_provs : List Province) :
    List DistrictRow :=
  let moq := all_districts.filter (fun d => strTake d.ubigeo 2 == "18")
  mergeProvLeft (moq.map (fun d => (d, strTake d.ubigeo 4))) (provMap all_provs)

/-- One feature row of a fetched alert geometry: its severity sub-level tag
`nivel` and its polygon. -/
structure Feature where
  nivel : String
  shape : Rect
deriving DecidableEq, Repr

/-- A fetched alert GeoDataFrame: its feature rows, and whether the frame
carries a `nivel` column at all (`'nivel' in alert_geom.columns`,
`get_alerts.py` line 94). -/
structure AlertGeom where
  hasNivelCol : Bool
  features : List Feature
deriving DecidableEq, Repr

/-- The Geometry Filter, `get_alerts.py` lines 93-95: when the frame has a
`nivel` column, drop every feature whose tag equals the background tag
`"Nivel 1"` by exact case-sensitive string comparison; when the column is
absent the filter is skipped and every feature survives. -/
def filterBackground (g : AlertGeom) : List Feature :=
  if g.hasNivelCol then g.features.filter (fun f => f.nivel != "Nivel 1")
  else g.features

/-- One output row, `get_alerts.py` lines 117-126: denormalized alert
fields, the constant department, and the district's province and name.  The
province is optional because the left merge can leave it null. -/
structure Record where
  aviso : String
  nro : String
  nivel : String
  inicio : String
  fin : String
  departamento : String
  provincia : Option String
  distrito : String
deriving DecidableEq, Repr

/-- Record assembly for one (alert, district) pair, lines 117-126. -/
def mkRecord (a : RawAlert) (d : DistrictRow) : Record :=
  ⟨a.aviso, a.nro, a.nivel, a.inicio, a.fin, "MOQUEGUA", d.nombprov, d.nombdist⟩

/-- The spatial join of lines 102-107: `gpd.sjoin(moquegua_dists,
alert_geom, how='inner', predicate='intersects')` — every (district,
feature) pair whose geometries intersect, left rows in order, matches
within a left row in right order. -/
def sjoinIntersections (dists : List DistrictRow) (feats : List Feature) :
    List (DistrictRow × Feature) :=
  dists.flatMap (fun d =>
    (feats.filter (fun f => intersectsRect d.geometry f.shape)).map (fun f => (d, f)))

/-- The records one alert contributes, lines 102-126: one `Record` per
intersecting (district, feature) pair. -/
def alertRecords (dists : List DistrictRow) (a : RawAlert) (feats : List Feature) :
    List Record :=
  (sjoinIntersections dists feats).map (fun p => mkRecord a p.1)

/-- The body of the per-alert loop, `get_alerts.py` lines 82-131.
`fetch` stands for `senamhi_get_spatial_alerts`, which catches every
exception internally and returns `None` on network errors, non-ZIP
responses or missing shapefiles; `none` or an empty frame makes the alert
contribute nothing (`continue`), as does a frame left empty by the
background filter.  The surrounding `try`/`except` turns any remaining
failure into a skip, so the body is total. -/
def processAlert (dists : List DistrictRow) (fetch : RawAlert → Option AlertGeom)
    (a : RawAlert) : List Record :=
  match fetch a with
  | none => []
  | some g =>
    if g.features.isEmpty then []
    else
      let feats := filterBackground g
      if g.hasNivelCol && feats.isEmpty then []
      else alertRecords dists a feats

/-- The alert loop of lines 79-131 over the active rows: each alert's
contribution in source order. -/
def runAlerts (dists : List DistrictRow) (fetch : RawAlert → Option AlertGeom)
    (alerts : List (RawAlert × Nat)) : List Record :=
  alerts.flatMap (fun p => processAlert dists fetch p.1)

/-- True when the geometry fetch for an alert fails in one of the ways
lines 86-88 skip: `senamhi_get_spatial_alerts` returned `None` (network
error, non-geometry response) or an empty frame. -/
def fetchFails (fetch : RawAlert → Option AlertGeom) (a : RawAlert) : Bool :=
  match fetch a with
  | none => true
  | some g => g.features.isEmpty

/-- The whole of `get_moquegua_alerts` (lines 31-143): parse the end-date
column (an unparsable string raises), keep the active rows, return an empty
table when none are active, load the district registry, run the alert
loop, return an empty table when no record was produced, and otherwise the
deduplicated table. -/
def getMoqueguaAlerts (alerts_table : List RawAlert) (today : Nat)
    (all_districts : List District) (all_provs : List Province)
    (fetch : RawAlert → Option AlertGeom) : Except String (List Record) := do
  let rows ← toDatetimeFin alerts_table
  let active := filterActive rows today
  if active.isEmpty then return []
  let moq := loadMoqueguaDistricts all_districts all_provs
  let warnings := runAlerts moq fetch active
  if warnings.isEmpty then return []
  return dropDuplicates warnings

/-- A stored alert row of the `alerts_history` table (`database.py`). -/
structure DbAlert where
  aviso : String
  nro : String
  nivel : String
  inicio : String
  fin : String
  status : String
deriving DecidableEq, Repr

/-- A stored row of the `affected_districts` table (`database.py`). -/
structure DbDistrict where
  alert_id : Nat
  distrito : String
  provincia : Option String
  departamento : String
deriving DecidableEq, Repr

/-- The SQLite database state: the `alerts_history` rows with their ids,
the next AUTOINCREMENT id, and the `affected_districts` rows. -/
structure Database where
  alerts : List (Nat × DbAlert)
  nextId : Nat
  districts : List DbDistrict
deriving DecidableEq, Repr

/-- `AlertDatabase.add_alert` (`database.py` lines 68-116): update the row
matching `(nro, inicio)` in place, or insert a fresh row with a new id. -/
def addAlert (db : Database) (a : DbAlert) : Nat × Database :=
  match db.alerts.find? (fun p => p.2.nro == a.nro && p.2.inicio == a.inicio) with
  | some p =>
    (p.1, { db with alerts := db.alerts.map (fun q => if q.1 == p.1 then (q.1, a) else q) })
  | none =>
    (db.nextId, { db with alerts := db.alerts ++ [(db.nextId, a)], nextId := db.nextId + 1 })

/-- `AlertDatabase.add_affected_districts` (`database.py` lines 118-139):
delete this alert's district rows, then insert the new ones. -/
def addAffectedDistricts (db : Database) (id : Nat) (ds : List DbDistrict) : Database :=
  { db with districts := db.districts.filter (fun r => r.alert_id != id) ++ ds }

/-- The five alert columns `save_to_database` deduplicates on
(`get_alerts.py` line 155). -/
def recKey (r : Record) : String × String × String × String × String :=
  (r.aviso, r.nro, r.nivel, r.inicio, r.fin)

/-- The body of the per-alert persistence loop, `get_alerts.py`
lines 157-187: parse the end date again (raising on failure), derive the
status, upsert the alert and replace its district rows. -/
def saveAlert (today : Nat) (warnings : List Record) (db : Database)
    (k : String × String × String × String × String) : Except String Database := do
  let finD ← match parseDate k.2.2.2.2 with
    | some d => Except.ok d
    | none => Except.error k.2.2.2.2
  let status := if today ≤ finD then "active" else "expired"
  let (id, db1) := addAlert db ⟨k.1, k.2.1, k.2.2.1, k.2.2.2.1, k.2.2.2.2, status⟩
  let ds := (warnings.filter (fun r => r.nro == k.2.1)).map
    (fun r => DbDistrict.mk id r.distrito r.provincia r.departamento)
  return addAffectedDistricts db1 id ds

/-- `save_to_database` (`get_alerts.py` lines 146-189): nothing happens on
an empty table; otherwise each distinct alert of the table is upserted. -/
def saveToDatabase (db : Database) (warnings : List Record) (today : Nat) :
    Except String Database :=
  if warnings.isEmpty then Except.ok db
  else (dropDuplicates (warnings.map recKey)).foldlM (saveAlert today warnings) db

/-- The externally visible state `main` can touch: the flat CSV file's
contents (absent before a first run) and the history database. -/
structure World where
  csvFile : Option (List Record)
  db : Database
deriving DecidableEq, Repr

/-- `main` (`get_alerts.py` lines 192-220): build the table; on an empty
table return at once, leaving the file and the database untouched;
otherwise write the CSV and update the database. -/
def mainRun (w : World) (alerts_table : List RawAlert) (today : Nat)
    (all_districts : List District) (all_provs : List Province)
    (fetch : RawAlert → Option AlertGeom) : Except String World := do
  let warnings ← getMoqueguaAlerts alerts_table today all_districts all_provs fetch
  if warnings.isEmpty then return w
  let w1 : World := { w with csvFile := some warnings }
  let db1 ← saveToDatabase w1.db warnings today
  return { w1 with db := db1 }

/-- Model of line 212, `warnings_df.to_csv(csv_path, index=False)`: pandas
opens the destination path itself for writing, truncating it, and streams
the table row by row; a run interrupted after `k` rows leaves exactly those
`k` rows in the file. -/
def directWriteInterrupted (rows : List Record) (k : Nat) : List Record :=
  rows.take k

/-- Modelled from the spec: the write-then-swap discipline of §7, missing
from the code — the table is written to a temporary file and the temporary
file is swapped over the destination in one step, so an interrupted run
leaves either the old contents or the complete new table. -/
def swapWriteInterrupted (old rows : List Record) (swapped : Bool) : List Record :=
  if swapped then rows else old

/-! Concrete fixtures used by the witness theorems. -/

/-- An alert ending 2026-10-10 (expired relative to `exToday`). -/
def exAlertOct10 : RawAlert :=
  ⟨"Aviso de lluvia", "100", "2026-10-01", "2026-10-02", "2026-10-10", "72 horas", "Nivel 3"⟩

/-- An alert ending 2026-10-12 (ends on `exToday`: the boundary case). -/
def exAlertOct12 : RawAlert :=
  ⟨"Aviso de viento", "101", "2026-10-03", "2026-10-04", "2026-10-12", "48 horas", "Nivel 2"⟩

/-- An alert ending 2026-10-14 (active past `exToday`). -/
def exAlertOct14 : RawAlert :=
  ⟨"Aviso de nieve", "102", "2026-10-05", "2026-10-06", "2026-10-14", "24 horas", "Nivel 4"⟩

/-- An alert whose end-date string does not parse as a date. -/
def exBadDateAlert : RawAlert :=
  ⟨"Aviso malo", "103", "2026-10-05", "2026-10-06", "fecha invalida", "24 horas", "Nivel 2"⟩

/-- The reference run date, 2026-10-12 in the date encoding. -/
def exToday : Nat := 20261012

/-- The unit square with corners (0,0) and (1,1). -/
def exSquareA : Rect := ⟨0, 0, 1, 1⟩

/-- The unit square with corners (1,1) and (2,2): it touches `exSquareA`
at the single point (1,1). -/
def exSquareB : Rect := ⟨1, 1, 2, 2⟩

/-- A district row whose polygon is `exSquareA`. -/
def exCornerDistrict : DistrictRow := ⟨"180101", "MOQUEGUA", exSquareA, some "MARISCAL NIETO"⟩

/-- A hazard feature whose polygon is `exSquareB`. -/
def exCornerFeature : Feature := ⟨"Nivel 3", exSquareB⟩

/-- A background feature tagged exactly `"Nivel 1"`. -/
def exNivel1Feature : Feature := ⟨"Nivel 1", exSquareB⟩

/-- A feature tagged `"nivel 1"` in lower case: the case-sensitive filter
must keep it. -/
def exLowerNivel1Feature : Feature := ⟨"nivel 1", exSquareB⟩

/-- A hazard feature tagged `"Nivel 2"`, away from `exSquareA`. -/
def exNivel2Feature : Feature := ⟨"Nivel 2", ⟨5, 5, 6, 6⟩⟩

/-- A geometry result holding only the background layer. -/
def exBackgroundOnlyGeom : AlertGeom := ⟨true, [exNivel1Feature]⟩

/-- A geometry result mixing the background tag with two other tags. -/
def exMixedGeom : AlertGeom := ⟨true, [exNivel1Feature, exLowerNivel1Feature, exNivel2Feature]⟩

/-- A geometry result with no `nivel` column whose only feature carries the
background tag value. -/
def exNoColGeom : AlertGeom := ⟨false, [exNivel1Feature]⟩

/-- A fetch that fails for every alert. -/
def exFetchNone : RawAlert → Option AlertGeom := fun _ => none

/-- A fetch returning the background-only geometry for every alert. -/
def exFetchBackground : RawAlert → Option AlertGeom := fun _ => some exBackgroundOnlyGeom

/-- A fetch returning the column-free geometry for every alert. -/
def exFetchNoCol : RawAlert → Option AlertGeom := fun _ => some exNoColGeom

/-- A fetch returning the corner-touching hazard feature for alert `"101"`
and failing for every other alert. -/
def exFetchCorner : RawAlert → Option AlertGeom := fun a =>
  if a.nro == "101" then some ⟨true, [exCornerFeature]⟩ else none

/-- A record of a previous run, used as pre-existing file contents. -/
def exOldRecord : Record :=
  ⟨"Aviso viejo", "90", "Nivel 2", "2026-09-01", "2026-09-03", "MOQUEGUA", some "ILO", "ILO"⟩

/-- Two distinct fresh records. -/
def exRecord1 : Record := mkRecord exAlertOct12 exCornerDistrict

/-- A second fresh record differing from `exRecord1`. -/
def exRecord2 : Record :=
  ⟨"Aviso de nieve", "102", "Nivel 4", "2026-10-06", "2026-10-14", "MOQUEGUA", none, "ILO"⟩

/-- A world holding the previous run's file contents and history rows. -/
def exWorld : World :=
  ⟨some [exOldRecord],
   ⟨[(1, ⟨"Aviso viejo", "90", "Nivel 2", "2026-09-01", "2026-09-03", "expired"⟩)], 2,
    [⟨1, "ILO", some "ILO", "MOQUEGUA"⟩]⟩⟩

end Moquegua

namespace Moquegua

theorem toDatetimeFin_nil : toDatetimeFin [] = Except.ok [] := rfl

theorem toDatetimeFin_cons (a : RawAlert) (l : List RawAlert) :
    toDatetimeFin (a :: l) =
      match parseDate a.fin with
      | some d => (toDatetimeFin l).map (fun rs => (a, d) :: rs)
      | none => Except.error a.fin := by
  unfold toDatetimeFin
  simp only [List.mapM_cons]
  cases parseDate a.fin with
  | none => rfl
  | some d =>
    simp only []
    cases h : List.mapM (fun a =>
        match parseDate a.fin with
        | some d => Except.ok (a, d)
        | none => Except.error a.fin) l <;>
      simp [h, Except.map, bind, Except.bind, pure, Except.pure]

/-- Parsing the whole column succeeds exactly when every row parses, and the
result pairs each row with its parsed end date in order. -/
theorem toDatetimeFin_ok_iff (alerts : List RawAlert) (rows : List (RawAlert × Nat)) :
    toDatetimeFin alerts = Except.ok rows →
      rows.map Prod.fst = alerts ∧ ∀ p ∈ rows, parseDate p.1.fin = some p.2 := by
  induction alerts generalizing rows with
  | nil =>
    intro h
    cases h
    simp
  | cons a l ih =>
    intro h
    rw [toDatetimeFin_cons] at h
    cases hp : parseDate a.fin with
    | none => rw [hp] at h; cases h
    | some d =>
      rw [hp] at h
      cases hl : toDatetimeFin l with
      | error e => rw [hl] at h; cases h
      | ok rs =>
        rw [hl] at h
        simp only [Except.map] at h
        cases h
        obtain ⟨h1, h2⟩ := ih rs hl
        refine ⟨by simp [h1], ?_⟩
        intro p hmem
        rw [List.mem_cons] at hmem
        rcases hmem with rfl | hmem
        · simpa using hp
        · exact h2 p hmem

/-- C1: for every raw alert list whose end-date column parses and every run
date `today` (a calendar date, so already normalized to midnight), the
Active-Alert Filter keeps exactly the rows whose parsed end date is
≥ today — every row with end date < today is excluded, a row whose end date
equals today is included (boundary inclusive) — and the surviving rows keep
their source order (the output is a sublist of the input). -/
theorem activeFilter_keeps_exactly (alerts : List RawAlert)
    (rows : List (RawAlert × Nat)) (today : Nat)
    (h : toDatetimeFin alerts = Except.ok rows) :
    rows.map Prod.fst = alerts ∧
    (∀ p ∈ rows, parseDate p.1.fin = some p.2) ∧
    (filterActive rows today).Sublist rows ∧
    (∀ p : RawAlert × Nat, p ∈ filterActive rows today ↔ p ∈ rows ∧ today ≤ p.2) := by
  obtain ⟨h1, h2⟩ := toDatetimeFin_ok_iff alerts rows h
  refine ⟨h1, h2, List.filter_sublist _, ?_⟩
  intro p
  simp [filterActive]

/-- Witness for C1 at a concrete input: three alerts ending the 10th, the
12th and the 14th of October 2026, run on the 12th; the filter keeps the
boundary alert and the later one, in source order, and drops the expired
one. -/
theorem activeFilter_keeps_exactly_witness :
    ([(exAlertOct10, 20261010), (exAlertOct12, 20261012), (exAlertOct14, 20261014)].map
        Prod.fst = [exAlertOct10, exAlertOct12, exAlertOct14]) ∧
    (∀ p ∈ [(exAlertOct10, 20261010), (exAlertOct12, 20261012), (exAlertOct14, 20261014)],
        parseDate p.1.fin = some p.2) ∧
    (filterActive [(exAlertOct10, 20261010), (exAlertOct12, 20261012),
        (exAlertOct14, 20261014)] exToday).Sublist
      [(exAlertOct10, 20261010), (exAlertOct12, 20261012), (exAlertOct14, 20261014)] ∧
    (∀ p : RawAlert × Nat,
        p ∈ filterActive [(exAlertOct10, 20261010), (exAlertOct12, 20261012),
          (exAlertOct14, 20261014)] exToday ↔
          p ∈ [(exAlertOct10, 20261010), (exAlertOct12, 20261012), (exAlertOct14, 20261014)] ∧
            exToday ≤ p.2) :=
  activeFilter_keeps_exactly [exAlertOct10, exAlertOct12, exAlertOct14]
    [(exAlertOct10, 20261010), (exAlertOct12, 20261012), (exAlertOct14, 20261014)]
    exToday (by rfl)

/-- C6 (recorded as a code bug): a single alert row whose `fin` string does
not parse makes line 43's `pd.to_datetime` raise, so the whole run aborts
with an error instead of excluding just that row: even the parseable alert
`exAlertOct12` produces nothing. -/
theorem badDate_aborts_run :
    toDatetimeFin [exAlertOct12, exBadDateAlert] = Except.error "fecha invalida" ∧
    getMoqueguaAlerts [exAlertOct12, exBadDateAlert] exToday [] [] exFetchCorner =
      Except.error "fecha invalida" := by
  constructor <;> rfl

theorem mem_dropDupAux {α : Type} [DecidableEq α] (seen : List α) (l : List α) (a : α) :
    a ∈ dropDupAux seen l ↔ a ∈ l ∧ a ∉ seen := by
  induction l generalizing seen with
  | nil => simp [dropDupAux]
  | cons x xs ih =>
    by_cases hx : x ∈ seen
    · rw [dropDupAux, if_pos hx, ih]
      constructor
      · rintro ⟨ha, hs⟩
        exact ⟨List.mem_cons_of_mem x ha, hs⟩
      · rintro ⟨ha, hs⟩
        rcases List.mem_cons.mp ha with rfl | ha
        · exact absurd hx hs
        · exact ⟨ha, hs⟩
    · rw [dropDupAux, if_neg hx]
      constructor
      · intro hmem
        rcases List.mem_cons.mp hmem with rfl | hmem
        · exact ⟨List.mem_cons_self a xs, hx⟩
        · obtain ⟨ha, hs⟩ := (ih (x :: seen)).mp hmem
          exact ⟨List.mem_cons_of_mem x ha,
            fun hc => hs (List.mem_cons_of_mem x hc)⟩
      · rintro ⟨ha, hs⟩
        rcases List.mem_cons.mp ha with rfl | ha
        · exact List.mem_cons_self a _
        · by_cases hax : a = x
          · subst hax; exact List.mem_cons_self a _
          · exact List.mem_cons_of_mem x
              ((ih (x :: seen)).mpr ⟨ha, by
                intro hc
                rcases List.mem_cons.mp hc with h1 | h1
                · exact hax h1
                · exact hs h1⟩)

theorem nodup_dropDupAux {α : Type} [DecidableEq α] (seen : List α) (l : List α) :
    (dropDupAux seen l).Nodup := by
  induction l generalizing seen with
  | nil => simp [dropDupAux]
  | cons x xs ih =>
    by_cases hx : x ∈ seen
    · rw [dropDupAux, if_pos hx]; exact ih seen
    · rw [dropDupAux, if_neg hx, List.nodup_cons]
      refine ⟨?_, ih (x :: seen)⟩
      rw [mem_dropDupAux]
      rintro ⟨-, hns⟩
      exact hns (List.mem_cons_self x seen)

theorem sublist_dropDupAux {α : Type} [DecidableEq α] (seen : List α) (l : List α) :
    (dropDupAux seen l).Sublist l := by
  induction l generalizing seen with
  | nil => simp [dropDupAux]
  | cons x xs ih =>
    by_cases hx : x ∈ seen
    · rw [dropDupAux, if_pos hx]; exact (ih seen).cons x
    · rw [dropDupAux, if_neg hx]; exact (ih (x :: seen)).cons₂ x

theorem dropDupAux_eq_self {α : Type} [DecidableEq α] (seen : List α) (l : List α)
    (h : l.Nodup) (hs : ∀ a ∈ l, a ∉ seen) : dropDupAux seen l = l := by
  induction l generalizing seen with
  | nil => rfl
  | cons x xs ih =>
    rw [List.nodup_cons] at h
    rw [dropDupAux, if_neg (hs x (List.mem_cons_self x xs))]
    congr 1
    apply ih _ h.2
    intro a ha hc
    rcases List.mem_cons.mp hc with rfl | h1
    · exact h.1 ha
    · exact hs a (List.mem_cons_of_mem x ha) h1

theorem keepFirsts_nil {α : Type} [DecidableEq α] : keepFirsts ([] : List α) = [] := by
  rw [keepFirsts]

theorem keepFirsts_cons {α : Type} [DecidableEq α] (x : α) (xs : List α) :
    keepFirsts (x :: xs) = x :: keepFirsts (xs.filter (fun y => y ≠ x)) := by
  rw [keepFirsts]

theorem dropDupAux_eq_keepFirsts {α : Type} [DecidableEq α] (seen : List α) (l : List α) :
    dropDupAux seen l = keepFirsts (l.filter (fun y => y ∉ seen)) := by
  induction l generalizing seen with
  | nil => simp [dropDupAux, keepFirsts_nil]
  | cons x xs ih =>
    by_cases hx : x ∈ seen
    · rw [dropDupAux, if_pos hx, List.filter_cons_of_neg (by simpa using hx), ih]
    · rw [dropDupAux, if_neg hx, List.filter_cons_of_pos (by simpa using hx),
        keepFirsts_cons, ih (x :: seen), List.filter_filter]
      congr 1
      apply congrArg
      apply List.filter_congr
      intro a _
      by_cases h1 : a = x <;> by_cases h2 : a ∈ seen <;>
        simp [h1, h2, List.mem_cons]

theorem dropDuplicates_eq_keepFirsts {α : Type} [DecidableEq α] (l : List α) :
    dropDuplicates l = keepFirsts l := by
  rw [dropDuplicates, dropDupAux_eq_keepFirsts]
  congr 1
  apply List.filter_eq_self.mpr
  intro a _
  simp

/-- C4: deduplication of the concatenated record table removes exactly the
exact-duplicate rows — the output rows are precisely the rows of the input,
each appearing once, in insertion order (a sublist of the input) — it keeps
the first occurrence of each row (it equals the keep-first rendering of the
spec), and it is idempotent: a second application removes nothing. -/
theorem dropDuplicates_correct (rows : List Record) :
    (∀ r : Record, r ∈ dropDuplicates rows ↔ r ∈ rows) ∧
    (dropDuplicates rows).Nodup ∧
    (dropDuplicates rows).Sublist rows ∧
    dropDuplicates rows = keepFirsts rows ∧
    dropDuplicates (dropDuplicates rows) = dropDuplicates rows := by
  refine ⟨?_, nodup_dropDupAux [] rows, sublist_dropDupAux [] rows,
    dropDuplicates_eq_keepFirsts rows, ?_⟩
  · intro r
    rw [dropDuplicates, mem_dropDupAux]
    simp
  · exact dropDupAux_eq_self [] (dropDuplicates rows) (nodup_dropDupAux [] rows)
      (fun a _ => List.not_mem_nil a)

/-- C3: the spatial join uses the permissive `intersects` predicate — for
every district rectangle and feature rectangle it holds exactly when the
two closed point sets share at least one point, so boundary contact counts;
in particular the two synthetic unit squares that touch only at the corner
(1,1) are reported as intersecting and the join emits exactly one record
for the pair, while the strict `overlaps` semantics would reject them. -/
theorem intersects_is_permissive (a b : Rect) :
    (intersectsRect a b = true ↔
      ∃ p : Int × Int, a.containsPt p = true ∧ b.containsPt p = true) ∧
    intersectsRect exSquareA exSquareB = true ∧
    overlapsRect exSquareA exSquareB = false ∧
    sjoinIntersections [exCornerDistrict] [exCornerFeature] =
      [(exCornerDistrict, exCornerFeature)] ∧
    alertRecords [exCornerDistrict] exAlertOct12 [exCornerFeature] =
      [mkRecord exAlertOct12 exCornerDistrict] := by
  refine ⟨?_, by decide, by decide, by decide, by decide⟩
  constructor
  · intro h
    simp only [intersectsRect, Bool.and_eq_true, decide_eq_true_eq] at h
    refine ⟨(max a.x1 b.x1, max a.y1 b.y1), ?_, ?_⟩ <;>
      · simp only [Rect.containsPt, Bool.and_eq_true, decide_eq_true_eq]
        omega
  · rintro ⟨p, hpa, hpb⟩
    simp only [Rect.containsPt, Bool.and_eq_true, decide_eq_true_eq] at hpa hpb
    simp only [intersectsRect, Bool.and_eq_true, decide_eq_true_eq]
    omega

/-- Unfolding of the loop body when the fetch returns no geometry. -/
theorem processAlert_none (dists : List DistrictRow)
    (fetch : RawAlert → Option AlertGeom) (a : RawAlert)
    (h : fetch a = none) : processAlert dists fetch a = [] := by
  unfold processAlert
  rw [h]

/-- Unfolding of the loop body when the fetch returns a geometry frame. -/
theorem processAlert_some (dists : List DistrictRow)
    (fetch : RawAlert → Option AlertGeom) (a : RawAlert) (g : AlertGeom)
    (h : fetch a = some g) :
    processAlert dists fetch a =
      if g.features.isEmpty then []
      else if g.hasNivelCol && (filterBackground g).isEmpty then []
      else alertRecords dists a (filterBackground g) := by
  unfold processAlert
  rw [h]

/-- When the fetch for an alert fails (`None`, or an empty frame), the
per-alert body contributes nothing. -/
theorem processAlert_nil_of_fail (dists : List DistrictRow)
    (fetch : RawAlert → Option AlertGeom) (a : RawAlert)
    (h : fetchFails fetch a = true) : processAlert dists fetch a = [] := by
  unfold fetchFails at h
  cases hf : fetch a with
  | none => exact processAlert_none dists fetch a hf
  | some g =>
    rw [hf] at h
    have h2 : g.features.isEmpty = true := h
    rw [processAlert_some dists fetch a g hf, if_pos h2]

/-- The alert loop processes a list head-first: the head's contribution is
followed by the rest's. -/
theorem runAlerts_cons (dists : List DistrictRow) (fetch : RawAlert → Option AlertGeom)
    (p : RawAlert × Nat) (rest : List (RawAlert × Nat)) :
    runAlerts dists fetch (p :: rest) =
      processAlert dists fetch p.1 ++ runAlerts dists fetch rest := by
  simp [runAlerts]

/-- C2: for a geometry result that carries the sub-level column, the
Geometry Filter keeps exactly the features whose tag differs from the
background tag `"Nivel 1"` (exact, case-sensitive string comparison); if
nothing survives the filter, the alert contributes zero records, and the
loop goes on to the next alert: the rest of the run is exactly what it
would have been. -/
theorem backgroundFilter_correct (g : AlertGeom) (dists : List DistrictRow)
    (fetch : RawAlert → Option AlertGeom) (a : RawAlert) (d : Nat)
    (rest : List (RawAlert × Nat))
    (hcol : g.hasNivelCol = true) (hfetch : fetch a = some g) :
    (∀ f : Feature, f ∈ filterBackground g ↔ f ∈ g.features ∧ f.nivel ≠ "Nivel 1") ∧
    (filterBackground g = [] → processAlert dists fetch a = []) ∧
    runAlerts dists fetch ((a, d) :: rest) =
      processAlert dists fetch a ++ runAlerts dists fetch rest := by
  refine ⟨?_, ?_, runAlerts_cons dists fetch (a, d) rest⟩
  · intro f
    simp [filterBackground, hcol, List.mem_filter]
  · intro hemp
    rw [processAlert_some dists fetch a g hfetch]
    cases hfe : g.features.isEmpty
    · rw [if_neg (by simp), if_pos (by rw [hcol, hemp]; rfl)]
    · simp

/-- Witness for C2 at a concrete input: a mixed geometry result keeps the
lower-case `"nivel 1"` and the `"Nivel 2"` features and drops the exact
background tag; a background-only result contributes zero records while the
next alert in the loop still produces its record. -/
theorem backgroundFilter_correct_witness :
    ((∀ f : Feature, f ∈ filterBackground exBackgroundOnlyGeom ↔
        f ∈ exBackgroundOnlyGeom.features ∧ f.nivel ≠ "Nivel 1") ∧
     (filterBackground exBackgroundOnlyGeom = [] →
        processAlert [exCornerDistrict] exFetchBackground exAlertOct12 = []) ∧
     runAlerts [exCornerDistrict] exFetchBackground
        ((exAlertOct12, 20261012) :: [(exAlertOct14, 20261014)]) =
       processAlert [exCornerDistrict] exFetchBackground exAlertOct12 ++
         runAlerts [exCornerDistrict] exFetchBackground [(exAlertOct14, 20261014)]) ∧
    filterBackground exBackgroundOnlyGeom = [] ∧
    processAlert [exCornerDistrict] exFetchBackground exAlertOct12 = [] ∧
    filterBackground exMixedGeom = [exLowerNivel1Feature, exNivel2Feature] :=
  ⟨backgroundFilter_correct exBackgroundOnlyGeom [exCornerDistrict] exFetchBackground
      exAlertOct12 20261012 [(exAlertOct14, 20261014)] (by rfl) (by rfl),
   by decide, by decide, by decide⟩

/-- C9: when the fetched geometry has no `nivel` column, the background
filter is skipped entirely — every feature survives it — and the alert's
records are the join over all its features, so even a feature carrying the
background tag value can produce affected-district records. -/
theorem noNivelColumn_skips_filter (g : AlertGeom) (dists : List DistrictRow)
    (fetch : RawAlert → Option AlertGeom) (a : RawAlert)
    (hcol : g.hasNivelCol = false) (hfetch : fetch a = some g)
    (hne : g.features ≠ []) :
    filterBackground g = g.features ∧
    processAlert dists fetch a = alertRecords dists a g.features := by
  have hfb : filterBackground g = g.features := by
    simp [filterBackground, hcol]
  refine ⟨hfb, ?_⟩
  rw [processAlert_some dists fetch a g hfetch]
  have hfe : g.features.isEmpty = false := by
    cases hg : g.features with
    | nil => exact absurd hg hne
    | cons x xs => simp [hg]
  simp [hfe, hcol, hfb]

/-- Witness for C9 at a concrete input: the column-free geometry whose only
feature carries the tag value `"Nivel 1"` passes the skipped filter whole
and yields one affected-district record. -/
theorem noNivelColumn_skips_filter_witness :
    (filterBackground exNoColGeom = exNoColGeom.features ∧
     processAlert [exCornerDistrict] exFetchNoCol exAlertOct12 =
       alertRecords [exCornerDistrict] exAlertOct12 exNoColGeom.features) ∧
    alertRecords [exCornerDistrict] exAlertOct12 exNoColGeom.features =
      [mkRecord exAlertOct12 exCornerDistrict] :=
  ⟨noNivelColumn_skips_filter exNoColGeom [exCornerDistrict] exFetchNoCol exAlertOct12
      (by rfl) (by rfl) (by decide),
   by decide⟩

/-- C5: a geometry fetch failure is local to its alert.  The whole loop is
a total function — it never aborts — a failing alert contributes zero
records, and the run's output equals the output of the run over only the
alerts whose fetch succeeds: every remaining alert still produces its
complete records. -/
theorem fetchFailure_is_local (dists : List DistrictRow)
    (fetch : RawAlert → Option AlertGeom) (alerts : List (RawAlert × Nat)) :
    runAlerts dists fetch alerts =
      runAlerts dists fetch (alerts.filter (fun p => !(fetchFails fetch p.1))) ∧
    ∀ p ∈ alerts, fetchFails fetch p.1 = true → processAlert dists fetch p.1 = [] := by
  refine ⟨?_, fun p _ h => processAlert_nil_of_fail dists fetch p.1 h⟩
  induction alerts with
  | nil => rfl
  | cons p rest ih =>
    rw [runAlerts_cons]
    cases hf : fetchFails fetch p.1
    · rw [List.filter_cons_of_pos (by simp [hf]), runAlerts_cons, ih]
    · rw [List.filter_cons_of_neg (by simp [hf]),
        processAlert_nil_of_fail dists fetch p.1 hf, List.nil_append, ih]

/-- Membership in the left merge on `prov_code`: a row comes from exactly
one input district (whose identifying fields it copies) and carries either
a matching province's name or, when no province code matches, `none`. -/
theorem mem_mergeProvLeft (dists : List (District × String)) (pm : List (String × String))
    (r : DistrictRow) :
    r ∈ mergeProvLeft dists pm ↔
      ∃ dp ∈ dists, r.ubigeo = dp.1.ubigeo ∧ r.nombdist = dp.1.nombdist ∧
        r.geometry = dp.1.geometry ∧
        ((r.nombprov = none ∧ pm.filter (fun q => q.1 == dp.2) = []) ∨
         (∃ q ∈ pm, q.1 = dp.2 ∧ r.nombprov = some q.2)) := by
  rw [mergeProvLeft, List.mem_flatMap]
  constructor
  · rintro ⟨dp, hdp, hr⟩
    refine ⟨dp, hdp, ?_⟩
    by_cases hms : (pm.filter (fun q => q.1 == dp.2)).isEmpty = true
    · rw [if_pos hms] at hr
      rcases List.mem_singleton.mp hr with rfl
      exact ⟨rfl, rfl, rfl, Or.inl ⟨rfl, List.isEmpty_iff.mp hms⟩⟩
    · rw [if_neg hms] at hr
      obtain ⟨q, hq, hqr⟩ := List.mem_map.mp hr
      obtain ⟨hqpm, hqcode⟩ := List.mem_filter.mp hq
      subst hqr
      exact ⟨rfl, rfl, rfl, Or.inr ⟨q, hqpm, by simpa using hqcode, rfl⟩⟩
  · rintro ⟨dp, hdp, h1, h2, h3, hprov | ⟨q, hqpm, hqcode, hqprov⟩⟩
    · refine ⟨dp, hdp, ?_⟩
      rw [if_pos (by rw [hprov.2]; rfl)]
      rcases r with ⟨ru, rn, rg, rp⟩
      simp only at h1 h2 h3
      have hp : rp = none := hprov.1
      rw [List.mem_singleton, h1, h2, h3, hp]
    · refine ⟨dp, hdp, ?_⟩
      have hqms : q ∈ pm.filter (fun p => p.1 == dp.2) :=
        List.mem_filter.mpr ⟨hqpm, by simpa using hqcode⟩
      rw [if_neg (by
        intro hemp
        rw [List.isEmpty_iff.mp hemp] at hqms
        exact List.not_mem_nil q hqms)]
      refine List.mem_map.mpr ⟨q, hqms, ?_⟩
      rcases r with ⟨ru, rn, rg, rp⟩
      simp only at h1 h2 h3 hqprov
      rw [h1, h2, h3, hqprov]

/-- C7: the District Registry Loader keeps exactly the districts whose
administrative identifier starts with the regional prefix `"18"` — a
district appears among the loaded rows precisely when it is in the input
and has the prefix — and every loaded row resolves its province by joining
the first four characters of its identifier against the province-code
table: a matching code yields that province's name, and when no code
matches, the province field is left null rather than the load failing. -/
theorem districtLoader_correct (ds : List District) (ps : List Province) :
    (∀ d : District,
        (∃ r ∈ loadMoqueguaDistricts ds ps,
            r.ubigeo = d.ubigeo ∧ r.nombdist = d.nombdist ∧ r.geometry = d.geometry) ↔
          d ∈ ds ∧ strTake d.ubigeo 2 = "18") ∧
    (∀ r ∈ loadMoqueguaDistricts ds ps,
        strTake r.ubigeo 2 = "18" ∧
        ((r.nombprov = none ∧ ∀ q ∈ provMap ps, q.1 ≠ strTake r.ubigeo 4) ∨
         (∃ q ∈ provMap ps, q.1 = strTake r.ubigeo 4 ∧ r.nombprov = some q.2))) := by
  constructor
  · intro d
    constructor
    · rintro ⟨r, hr, h1, h2, h3⟩
      rw [loadMoqueguaDistricts, mem_mergeProvLeft] at hr
      obtain ⟨dp, hdp, e1, e2, e3, -⟩ := hr
      obtain ⟨d1, hd1, rfl⟩ := List.mem_map.mp hdp
      obtain ⟨hd1ds, hd1pref⟩ := List.mem_filter.mp hd1
      have hdd : d = d1 := by
        rcases d with ⟨du, dn, dg⟩
        rcases d1 with ⟨d1u, d1n, d1g⟩
        simp only at h1 h2 h3 e1 e2 e3
        rw [← h1, ← h2, ← h3, e1, e2, e3]
      subst hdd
      exact ⟨hd1ds, by simpa using hd1pref⟩
    · rintro ⟨hin, hpref⟩
      have hd1 : d ∈ ds.filter (fun x => strTake x.ubigeo 2 == "18") :=
        List.mem_filter.mpr ⟨hin, by simpa using hpref⟩
      by_cases hms : (provMap ps).filter (fun q => q.1 == strTake d.ubigeo 4) = []
      · refine ⟨⟨d.ubigeo, d.nombdist, d.geometry, none⟩, ?_, rfl, rfl, rfl⟩
        rw [loadMoqueguaDistricts, mem_mergeProvLeft]
        exact ⟨(d, strTake d.ubigeo 4), List.mem_map.mpr ⟨d, hd1, rfl⟩,
          rfl, rfl, rfl, Or.inl ⟨rfl, hms⟩⟩
      · obtain ⟨q, hq⟩ := List.exists_mem_of_ne_nil _ hms
        obtain ⟨hqpm, hqcode⟩ := List.mem_filter.mp hq
        refine ⟨⟨d.ubigeo, d.nombdist, d.geometry, some q.2⟩, ?_, rfl, rfl, rfl⟩
        rw [loadMoqueguaDistricts, mem_mergeProvLeft]
        exact ⟨(d, strTake d.ubigeo 4), List.mem_map.mpr ⟨d, hd1, rfl⟩,
          rfl, rfl, rfl, Or.inr ⟨q, hqpm, by simpa using hqcode, rfl⟩⟩
  · intro r hr
    rw [loadMoqueguaDistricts, mem_mergeProvLeft] at hr
    obtain ⟨dp, hdp, e1, e2, e3, hprov⟩ := hr
    obtain ⟨d1, hd1, rfl⟩ := List.mem_map.mp hdp
    obtain ⟨-, hd1pref⟩ := List.mem_filter.mp hd1
    have hu : r.ubigeo = d1.ubigeo := e1
    constructor
    · rw [hu]; simpa using hd1pref
    · rcases hprov with ⟨hnone, hemp⟩ | ⟨q, hqpm, hqcode, hqprov⟩
      · refine Or.inl ⟨hnone, ?_⟩
        intro q hqpm hqeq
        have : q ∈ (provMap ps).filter (fun p => p.1 == strTake d1.ubigeo 4) :=
          List.mem_filter.mpr ⟨hqpm, by rw [hu] at hqeq; simpa using hqeq⟩
        rw [hemp] at this
        exact List.not_mem_nil q this
      · refine Or.inr ⟨q, hqpm, ?_, hqprov⟩
        rw [hu]
        exact hqcode

/-- C10: a run whose assembled table is empty (no active alerts, or no
alert intersecting any district) returns from `main` before the CSV write
and before any database call: the flat file and the history store keep the
previous run's contents unchanged. -/
theorem emptyRun_preserves_world (w : World) (alerts_table : List RawAlert) (today : Nat)
    (ds : List District) (ps : List Province) (fetch : RawAlert → Option AlertGeom)
    (h : getMoqueguaAlerts alerts_table today ds ps fetch = Except.ok []) :
    mainRun w alerts_table today ds ps fetch = Except.ok w := by
  unfold mainRun
  rw [h]
  rfl

/-- Witness for C10 at a concrete input: a table holding one expired alert
yields an empty result, and the run leaves the pre-existing world — file
contents and database rows — exactly as it found it. -/
theorem emptyRun_preserves_world_witness :
    mainRun exWorld [exAlertOct10] exToday [] [] exFetchNone = Except.ok exWorld :=
  emptyRun_preserves_world exWorld [exAlertOct10] exToday [] [] exFetchNone (by rfl)

/-- C8 (recorded as a code bug): the CSV replacement is a direct `to_csv`
into the destination path, not write-then-swap — a run interrupted after
one of two rows leaves a file that is neither the old contents nor the
complete new table, the partial state the spec rules out, whereas the
write-then-swap discipline only ever exposes the old contents or the full
new table. -/
theorem directWrite_leaves_partial_file :
    directWriteInterrupted [exRecord1, exRecord2] 1 = [exRecord1] ∧
    [exRecord1] ≠ [exOldRecord] ∧
    [exRecord1] ≠ [exRecord1, exRecord2] ∧
    swapWriteInterrupted [exOldRecord] [exRecord1, exRecord2] true = [exRecord1, exRecord2] ∧
    swapWriteInterrupted [exOldRecord] [exRecord1, exRecord2] false = [exOldRecord] :=
  ⟨by rfl, by decide, by decide, by rfl, by rfl⟩

end Moquegua
